import Mathlib

/-!
Shallow embedding of the unified file-scanning/caching core and the security
analyzer of the git-health-checker repository
(src/internal/git/repository.go scanner section, src/internal/scanner/files.go,
src/internal/analyzer/security.go, src/internal/config/config.go), together with
theorems settling the frozen claims about it.

Byte contents are modelled as `List Nat` (one entry per byte); Go strings are
modelled as Lean `String`, with the ASCII-only Go string helpers this code uses
re-implemented on the underlying character lists.
-/

namespace GitHealth

/-! ## Go string primitives (strings package, at the call sites this code uses) -/

/-- Models Go strings.ToLower on a single character for ASCII input:
uppercase ASCII letters map to lowercase, everything else is unchanged. -/
def asciiLowerChar (c : Char) : Char :=
  if 'A' ≤ c ∧ c ≤ 'Z' then Char.ofNat (c.toNat + 32) else c

/-- Models Go strings.ToLower for the ASCII strings this code applies it to. -/
def asciiToLower (s : String) : String :=
  String.mk (s.data.map asciiLowerChar)

/-- Substring test on character lists: true iff needle occurs contiguously in
hay (true for the empty needle, as in Go). -/
def listContainsSub (hay needle : List Char) : Bool :=
  if needle.isPrefixOf hay then true
  else
    match hay with
    | [] => false
    | _ :: t => listContainsSub t needle

/-- Models Go strings.Contains. -/
def goContains (s substr : String) : Bool :=
  listContainsSub s.data substr.data

/-- Models Go strings.HasPrefix. -/
def goStartsWith (s pre : String) : Bool :=
  pre.data.isPrefixOf s.data

/-- Models Go strings.HasSuffix. -/
def goEndsWith (s suf : String) : Bool :=
  suf.data.isSuffixOf s.data

/-- Models Go strings.TrimSuffix: removes the final occurrence of suf when s
ends with it, otherwise returns s unchanged. -/
def goTrimEnd (s suf : String) : String :=
  if goEndsWith s suf then String.mk (s.data.take (s.data.length - suf.data.length)) else s

/-- Splits a list at every occurrence of sep, keeping empty segments; for n
separators it yields n+1 segments, like Go strings.Split with a non-empty
separator. -/
def splitOnSep {α : Type} [DecidableEq α] (sep : α) : List α → List (List α)
  | [] => [[]]
  | c :: rest =>
    match splitOnSep sep rest with
    | s :: ss => if c = sep then [] :: s :: ss else (c :: s) :: ss
    | [] => if c = sep then [[], []] else [[c]]

/-- Models Go strings.Split(s, newline). -/
def splitLines (s : String) : List String :=
  (splitOnSep '\n' s.data).map String.mk

/-- Models Go strings.ReplaceAll(s, slash, dash) as used when building issue ids:
every path separator is replaced by a dash. -/
def replaceSlashDash (s : String) : String :=
  String.mk (s.data.map (fun c => if c = '/' then '-' else c))

/-- Models truncateString from security.go: strings of length at most maxLen are
returned unchanged, longer ones are cut to maxLen-3 characters plus an ellipsis
(byte-level slicing in Go; character-level here, identical on ASCII). -/
def truncateString (s : String) (maxLen : Nat) : String :=
  if s.data.length ≤ maxLen then s
  else String.mk (s.data.take (maxLen - 3)) ++ "..."

/-- Models the Go conversion string(bytes) for ASCII byte content. -/
def bytesToString (l : List Nat) : String :=
  String.mk (l.map Char.ofNat)

/-- Models the Go conversion []byte(s) for ASCII strings. -/
def strToBytes (s : String) : List Nat :=
  s.data.map Char.toNat

/-! ## filepath.Match (shell glob matching)

Go filepath.Match is modelled by a direct recursive matcher over the pattern:
star matches any run of non-separator characters, question mark one
non-separator character, a bracket expression one character from (or outside)
the listed ranges, backslash escapes the next pattern character.  Malformed
patterns yield false, which is what every call site in the repository observes
because each one discards the returned ErrBadPattern.  The `fuel` argument only
bounds the recursion depth; the wrapper supplies pattern length + name length
+ 1, which the matcher never exhausts since every recursive call shrinks the
combined length. -/

/-- Reads one range endpoint inside a bracket expression, following Go getEsc:
the list may not be empty or start with a dash or a closing bracket, and a
backslash escapes the next character. -/
def getEsc : List Char → Option (Char × List Char)
  | [] => none
  | '-' :: _ => none
  | ']' :: _ => none
  | '\\' :: rest =>
    match rest with
    | [] => none
    | c :: r => some (c, r)
  | c :: r => some (c, r)

/-- Matches character r against the ranges of a bracket expression (after any
leading caret), consuming the pattern up to and including the closing bracket.
Returns none on a malformed expression (empty range list, unterminated
expression, bad endpoint). -/
def classRanges (fuel : Nat) (p : List Char) (r : Char) (matched : Bool) (nrange : Nat) :
    Option (Bool × List Char) :=
  match fuel with
  | 0 => none
  | fuel + 1 =>
    match p with
    | ']' :: rest =>
      if nrange > 0 then some (matched, rest)
      else none
    | _ =>
      match getEsc p with
      | none => none
      | some (lo, p1) =>
        match p1 with
        | '-' :: p2 =>
          match getEsc p2 with
          | none => none
          | some (hi, p3) =>
            classRanges fuel p3 r (matched || (lo ≤ r && r ≤ hi)) (nrange + 1)
        | _ => classRanges fuel p1 r (matched || (lo ≤ r && r ≤ lo)) (nrange + 1)

/-- Matches character r against a full bracket expression, whose body starts
right after the opening bracket; a leading caret negates the result. -/
def classMatch (p : List Char) (r : Char) : Option (Bool × List Char) :=
  match p with
  | '^' :: rest =>
    match classRanges (rest.length + 1) rest r false 0 with
    | some (m, p1) => some (!m, p1)
    | none => none
  | _ => classRanges (p.length + 1) p r false 0

/-- Fuel-indexed glob matcher; see the section comment.  Each recursive call
strictly shrinks pattern length + name length, so any fuel above that sum
yields the fuel-free semantics. -/
def goMatchFuel : Nat → List Char → List Char → Bool
  | 0, _, _ => false
  | fuel + 1, pattern, name =>
    match pattern with
    | [] => name.isEmpty
    | '*' :: p =>
      goMatchFuel fuel p name ||
        (match name with
         | [] => false
         | c :: n => c ≠ '/' && goMatchFuel fuel ('*' :: p) n)
    | '?' :: p =>
      (match name with
       | [] => false
       | c :: n => c ≠ '/' && goMatchFuel fuel p n)
    | '\\' :: rest =>
      (match rest, name with
       | c :: p, d :: n => d = c && goMatchFuel fuel p n
       | _, _ => false)
    | '[' :: rest =>
      (match name with
       | [] => false
       | c :: n =>
         match classMatch rest c with
         | some (ok, p) => ok && goMatchFuel fuel p n
         | none => false)
    | c :: p =>
      (match name with
       | d :: n => d = c && goMatchFuel fuel p n
       | [] => false)

/-- Models Go filepath.Match as observed by the repository call sites (which
all discard the error value). -/
def goMatch (pattern name : String) : Bool :=
  goMatchFuel (pattern.data.length + name.data.length + 1) pattern.data name.data

/-! ## filepath path helpers (Ext, Base, Clean, Dir) on slash-separated paths -/

/-- Helper for goExt: scans the reversed path, accumulating characters until the
first dot (extension found) or a separator / the start (no extension). -/
def goExtAux : List Char → List Char → String
  | [], _ => ""
  | '/' :: _, _ => ""
  | '.' :: _, acc => String.mk ('.' :: acc)
  | c :: rest, acc => goExtAux rest (c :: acc)

/-- Models Go filepath.Ext: the suffix of the final path element starting at its
final dot, or empty when the final element has no dot. -/
def goExt (path : String) : String :=
  goExtAux path.data.reverse []

/-- Models Go filepath.Base: the last element of the path after removing
trailing separators; the empty path gives a dot, an all-separator path gives a
single separator. -/
def goBase (path : String) : String :=
  if path = "" then "."
  else
    let stripped := (path.data.reverse.dropWhile (fun c => c = '/')).reverse
    if stripped = [] then String.mk ['/']
    else String.mk ((stripped.reverse.takeWhile (fun c => c ≠ '/')).reverse)

/-- Segment processing for goClean: drops empty and dot segments, resolves
dot-dot against the output stack (kept when the stack is empty and the path is
relative, dropped at the root of an absolute path). -/
def cleanSegs (rooted : Bool) : List (List Char) → List (List Char) → List (List Char)
  | [], out => out.reverse
  | seg :: rest, out =>
    if seg = [] ∨ seg = ['.'] then cleanSegs rooted rest out
    else if seg = ['.', '.'] then
      match out with
      | top :: outRest =>
        if top = ['.', '.'] then cleanSegs rooted rest (seg :: top :: outRest)
        else cleanSegs rooted rest outRest
      | [] => if rooted then cleanSegs rooted rest [] else cleanSegs rooted rest [seg]
    else cleanSegs rooted rest (seg :: out)

/-- Models Go filepath.Clean on slash-separated paths via its documented rules:
collapse separator runs, drop dot segments, resolve dot-dot segments, return a
dot for the empty result. -/
def goClean (path : String) : String :=
  if path = "" then "."
  else
    let rooted := path.data.head? = some '/'
    let segs := cleanSegs rooted (splitOnSep '/' path.data) []
    let body := String.mk (List.intercalate ['/'] segs)
    if rooted then "/" ++ body
    else if body = "" then "." else body

/-- Models Go filepath.Dir: everything up to and including the final separator,
cleaned; a path with no separator gives a dot. -/
def goDir (path : String) : String :=
  let chars := path.data
  let afterLast := (chars.reverse.takeWhile (fun c => c ≠ '/')).length
  goClean (String.mk (chars.take (chars.length - afterLast)))

/-! ## Line counting (countLinesFromBytes, streaming counter, bufio scanner) -/

/-- Models countLinesFromBytes (repository.go): counts newline bytes and adds
one more when the content is non-empty and does not end with a newline. -/
def countLinesFromBytes (content : List Nat) : Nat :=
  let count := content.foldl (fun c b => if b = 10 then c + 1 else c) 0
  match content.getLast? with
  | none => count
  | some b => if b = 10 then count else count + 1

/-- Models countLinesInBuffer (repository.go): folds one buffer chunk into the
running newline count, tracking whether the last byte seen was a newline. -/
def countLinesInBuffer (buffer : List Nat) (currentCount : Nat) (lastWasNewline : Bool) :
    Nat × Bool :=
  buffer.foldl (fun st b => if b = 10 then (st.1 + 1, true) else (st.1, false))
    (currentCount, lastWasNewline)

/-- Models the read loop of streamingLineCount (repository.go): the file is
consumed in 64 KiB chunks, each folded through countLinesInBuffer; the loop
stops when a read returns no bytes. -/
def streamingReadLoop (content : List Nat) (count : Nat) (lastNl : Bool) : Nat × Bool :=
  if h : content = [] then (count, lastNl)
  else
    let st := countLinesInBuffer (content.take 65536) count lastNl
    streamingReadLoop (content.drop 65536) st.1 st.2
termination_by content.length
decreasing_by
  simp only [List.length_drop]
  have hlen : 0 < content.length := List.length_pos.mpr h
  omega

/-- Models adjustFinalLineCount (repository.go): adds one when the last byte
seen was not a newline (the count is a Nat, so the non-negativity conjunct of
the source condition always holds). -/
def adjustFinalLineCount (count : Nat) (lastCharWasNewline : Bool) : Nat :=
  if !lastCharWasNewline ∧ count ≥ 0 then count + 1 else count

/-- Models streamingLineCount (repository.go) on the byte content of a file. -/
def streamingLineCount (content : List Nat) : Nat :=
  let st := streamingReadLoop content 0 false
  adjustFinalLineCount st.1 st.2

/-- Removes a trailing carriage return from one line token, as Go
bufio.ScanLines does. -/
def dropCR (l : List Nat) : List Nat :=
  if l.getLast? = some 13 then l.dropLast else l

/-- Models the token sequence produced by a Go bufio.Scanner with ScanLines:
newline-separated segments, without a final empty segment for a trailing
newline, each with a trailing carriage return removed. -/
def scanLinesTokens (content : List Nat) : List (List Nat) :=
  let segs := splitOnSep 10 content
  let segs := if segs.getLast? = some [] then segs.dropLast else segs
  segs.map dropCR

/-- Models the buffered line counter of countLines (repository.go): the number
of bufio scanner tokens. -/
def countLinesScanner (content : List Nat) : Nat :=
  (scanLinesTokens content).length

/-! ## Filesystem model and filepath.Walk

A directory tree is modelled as a rose tree of named entries; a directory's
children are stored in the lexical order in which Go filepath.Walk visits them
(Walk reads and sorts directory names before descending).  Walk's contract for
the SkipDir sentinel is modelled exactly: returned for a directory it skips
that directory's subtree, returned for a non-directory file it abandons the
remaining entries of the containing directory, and at the top level it is
converted to a nil error. -/

/-- A filesystem entry: a file with modification time and byte content, or a
directory with its child entries in lexical order. -/
inductive FsEntry where
  | file (name : String) (mtime : Nat) (content : List Nat)
  | dir (name : String) (entries : List FsEntry)
deriving Repr

/-- Name of an entry. -/
def FsEntry.name : FsEntry → String
  | .file n _ _ => n
  | .dir n _ => n

/-- Directory test for an entry, as os.FileInfo.IsDir reports it. -/
def FsEntry.isDir : FsEntry → Bool
  | .file _ _ _ => false
  | .dir _ _ => true

/-- Outcome of one walk-function invocation: nil, filepath.SkipDir, or a real
error carrying its message. -/
inductive WalkSignal where
  | ok
  | skipDir
  | fail (msg : String)
deriving Repr, DecidableEq

/-- A walk function in the model: given the accumulated state, the full path of
the entry, its path relative to the walk root, and the entry itself, it yields
the new state and a signal.  The relative path argument stands for the
filepath.Rel(root, path) computation the source performs per file, which on the
paths Walk visits is exactly the root-relative join of entry names. -/
def WalkFn (σ : Type) := σ → String → String → FsEntry → σ × WalkSignal

mutual

/-- Models the recursive walk function of Go filepath.Walk on one entry: the
walk function is invoked on the entry itself; for a directory with a nil
result, the children are then visited in order. -/
def goWalk {σ : Type} (wf : WalkFn σ) : σ → String → String → FsEntry → σ × WalkSignal
  | st, path, rel, .file n m c => wf st path rel (.file n m c)
  | st, path, rel, .dir n es =>
    match wf st path rel (.dir n es) with
    | (st1, .ok) => goWalkChildren wf st1 path rel es
    | r => r

/-- Models the child loop of Go filepath.Walk: SkipDir from a directory child
is swallowed (its subtree was skipped), SkipDir from a file child aborts the
remaining entries of this directory by propagating upward, and a real error
aborts the whole walk. -/
def goWalkChildren {σ : Type} (wf : WalkFn σ) : σ → String → String → List FsEntry → σ × WalkSignal
  | st, _, _, [] => (st, .ok)
  | st, path, rel, e :: rest =>
    let childPath := path ++ "/" ++ e.name
    let childRel := if rel = "" then e.name else rel ++ "/" ++ e.name
    match goWalk wf st childPath childRel e with
    | (st1, .ok) => goWalkChildren wf st1 path rel rest
    | (st1, .skipDir) =>
      if e.isDir then goWalkChildren wf st1 path rel rest else (st1, .skipDir)
    | (st1, .fail m) => (st1, .fail m)

end

/-- Models Go filepath.Walk from a root entry (the repository root, a
directory): a top-level SkipDir is reported as success. -/
def goWalkTop {σ : Type} (wf : WalkFn σ) (st : σ) (rootPath : String) (root : FsEntry) :
    σ × WalkSignal :=
  match goWalk wf st rootPath "" root with
  | (st1, .skipDir) => (st1, .ok)
  | r => r

/-! ## Association-list operations standing for Go maps -/

/-- Lookup in an association list (Go map read). -/
def assocGet {κ α : Type} [DecidableEq κ] (m : List (κ × α)) (k : κ) : Option α :=
  match m with
  | [] => none
  | kv :: rest => if kv.1 = k then some kv.2 else assocGet rest k

/-- Insertion into an association list (Go map assignment): replaces the entry
for an existing key, otherwise appends. -/
def assocSet {κ α : Type} [DecidableEq κ] (m : List (κ × α)) (k : κ) (v : α) : List (κ × α) :=
  match m with
  | [] => [(k, v)]
  | kv :: rest => if kv.1 = k then (k, v) :: rest else kv :: assocSet rest k v

/-! ## The unified scanner (repository.go scanner section) -/

/-- Models UnifiedFileInfo: the per-file record built by the unified scan.
ModTime is the Unix timestamp from the file metadata. -/
structure UnifiedFileInfo where
  path : String
  relativePath : String
  size : Nat
  extension : String
  isText : Bool := false
  lineCount : Nat := 0
  content : List Nat := []
  firstBytes : List Nat := []
  modTime : Nat := 0
deriving Repr, DecidableEq

/-- The scan cache contents: relative path to file record (FileCache.files). -/
abbrev ScanCache := List (String × UnifiedFileInfo)

/-- Models the FileScanner fields the scan logic reads: the resolved root path,
the loaded ignore patterns and the content-cache size threshold (set to
1024*1024 by NewFileScanner). -/
structure FileScanner where
  rootPath : String
  gitIgnores : List String
  maxCacheSize : Nat := 1024 * 1024

/-- Models shouldSkipPath: a path is skipped when it contains the
version-control metadata directory name as a substring. -/
def shouldSkipPath (path : String) : Bool :=
  goContains path ".git"

/-- Models shouldIgnore for one pattern: a pattern ending in a separator is
additionally tried with the separator stripped, against the whole relative path
and against its base name; every pattern is tried against the whole relative
path and against its base name. -/
def ignoreRuleMatches (pattern path : String) : Bool :=
  (if goEndsWith pattern "/" then
    let dirPattern := goTrimEnd pattern "/"
    goMatch dirPattern path || goMatch dirPattern (goBase path)
  else false)
  || goMatch pattern path || goMatch pattern (goBase path)

/-- Models shouldIgnore: first matching ignore pattern wins. -/
def shouldIgnore (gitIgnores : List String) (path : String) : Bool :=
  gitIgnores.any (fun pattern => ignoreRuleMatches pattern path)

/-- Models shouldSkipDirectory (repository.go lines 698-707): when the path
contains the version-control metadata name the source returns filepath.SkipDir
from BOTH branches, for directories and for plain files alike; the two
identical branches of the source are kept here verbatim. -/
def shouldSkipDirectory (path : String) (isDir : Bool) : Option WalkSignal :=
  if shouldSkipPath path then
    some (if isDir then WalkSignal.skipDir else WalkSignal.skipDir)
  else none

/-- Models createFileInfo: basic metadata for a file (size from os.FileInfo,
lower-cased extension of the full path, modification time). -/
def createFileInfo (path relPath : String) (content : List Nat) (mtime : Nat) :
    UnifiedFileInfo :=
  { path := path
    relativePath := relPath
    size := content.length
    extension := asciiToLower (goExt path)
    modTime := mtime }

/-- Go read errors distinguished by readFirstBytes: end of file versus any
other error. -/
inductive ReadErr where
  | eof
  | other (msg : String)
deriving Repr, DecidableEq

/-- Models the Go call file.Read(buffer) with a 512-byte buffer: on an empty
file the call returns zero bytes and io.EOF, otherwise it returns up to 512
bytes and no error.  Other I/O errors are not generated by the model (every
modelled file is readable). -/
def fileRead512 (content : List Nat) : Nat × Option ReadErr :=
  if content.length = 0 then (0, some ReadErr.eof)
  else (min 512 content.length, none)

/-- Models readFirstBytes: the first up-to-512 bytes of the file; only errors
other than io.EOF are propagated, so the zero-byte read at end of file is a
success with an empty prefix. -/
def readFirstBytes (content : List Nat) : Except String (List Nat) :=
  let r := fileRead512 content
  match r.2 with
  | some (ReadErr.other m) => Except.error m
  | _ => Except.ok (content.take r.1)

/-- Models isTextFromBytes: text iff no byte of the prefix is the null byte. -/
def isTextFromBytes (bytes : List Nat) : Bool :=
  bytes.all (fun b => b ≠ 0)

/-- Models handleTextFileContent: cache the full content for files no larger
than the cache threshold (the io.ReadAll of cacheFileContent succeeds in the
model; its errors are ignored by the source anyway). -/
def handleTextFileContent (fs : FileScanner) (fi : UnifiedFileInfo) (content : List Nat) :
    UnifiedFileInfo :=
  if fi.size ≤ fs.maxCacheSize then { fi with content := content } else fi

/-- Models countLines: files above 1 MiB are counted by the streaming counter,
smaller ones by a bufio scanner (the os.Stat size equals the content length). -/
def countLines (content : List Nat) : Nat :=
  if content.length > 1024 * 1024 then streamingLineCount content
  else countLinesScanner content

/-- Models calculateLineCount: a cached (non-empty) content is counted in
memory, otherwise the file is re-read and counted by countLines (whose error
cases do not arise in the model; on error the source would leave the zero
value). -/
def calculateLineCount (fi : UnifiedFileInfo) (content : List Nat) : UnifiedFileInfo :=
  if fi.content.length > 0 then { fi with lineCount := countLinesFromBytes fi.content }
  else { fi with lineCount := countLines content }

/-- Models analyzeFileContent: binary detection from the first bytes; binary
files keep the zero values for content and line count; text files get content
caching and a line count. -/
def analyzeFileContent (fs : FileScanner) (fi : UnifiedFileInfo) (content : List Nat) :
    UnifiedFileInfo :=
  match readFirstBytes content with
  | Except.error _ => { fi with isText := false }
  | Except.ok fb =>
    let fi1 := { fi with firstBytes := fb, isText := isTextFromBytes fb }
    if !fi1.isText then fi1
    else calculateLineCount (handleTextFileContent fs fi1 content) content

/-- Models processFile: ignored files produce no record; otherwise the analyzed
record is inserted into the cache under the relative path (the filepath.Rel
error branch does not arise in the model, see WalkFn). -/
def processFile (fs : FileScanner) (cache : ScanCache) (path relPath : String)
    (content : List Nat) (mtime : Nat) : ScanCache × WalkSignal :=
  if shouldIgnore fs.gitIgnores relPath then (cache, WalkSignal.ok)
  else
    let fi := analyzeFileContent fs (createFileInfo path relPath content mtime) content
    (assocSet cache relPath fi, WalkSignal.ok)

/-- Models processUnifiedPath: skip check first, then directories are passed
over, then files are processed into the cache. -/
def processUnifiedPath (fs : FileScanner) : WalkFn ScanCache :=
  fun cache path relPath e =>
    match shouldSkipDirectory path e.isDir with
    | some sig => (cache, sig)
    | none =>
      match e with
      | .dir _ _ => (cache, WalkSignal.ok)
      | .file _ mtime content => processFile fs cache path relPath content mtime

/-- Models ScanAllFiles: the previous cache is discarded (the walk starts from
an empty cache whatever prevCache holds), the tree is walked once, and a walk
error aborts the whole scan with no cache returned. -/
def scanAllFiles (fs : FileScanner) (prevCache : ScanCache) (root : FsEntry) :
    Except String ScanCache :=
  let cleared : ScanCache := []
  match goWalkTop (processUnifiedPath fs) cleared fs.rootPath root with
  | (_, WalkSignal.fail msg) => Except.error ("failed to scan files: " ++ msg)
  | (c, _) => Except.ok c

/-- Decidable equality for Except results, so concrete scan outcomes can be
checked by evaluation. -/
instance {ε α : Type} [DecidableEq ε] [DecidableEq α] : DecidableEq (Except ε α) := fun x y =>
  match x, y with
  | Except.ok a, Except.ok b =>
    if h : a = b then Decidable.isTrue (by rw [h])
    else Decidable.isFalse (fun hc => h (Except.ok.inj hc))
  | Except.error a, Except.error b =>
    if h : a = b then Decidable.isTrue (by rw [h])
    else Decidable.isFalse (fun hc => h (Except.error.inj hc))
  | Except.ok _, Except.error _ => Decidable.isFalse (fun hc => Except.noConfusion hc)
  | Except.error _, Except.ok _ => Decidable.isFalse (fun hc => Except.noConfusion hc)

/-! ## The search engine (SearchInFiles, repository.go scanner section) -/

/-- Models the compiled regexp.Regexp values the search and the secret scan
hold: the original pattern text, the MatchString test, and the FindAllString
enumeration of non-overlapping matches in one line.  The regular-expression
engine itself is external to this embedding; theorems quantify over it. -/
structure GoRegex where
  str : String
  matchString : String → Bool
  findAllString : String → List String

/-- Models the Match record produced by the search engine. -/
structure Match where
  file : String
  line : Nat
  content : String
  pattern : String
deriving Repr, DecidableEq

/-- Models hasValidExtension: an empty allow-list admits every file, otherwise
the lower-cased extension must equal one of the lower-cased allowed ones. -/
def hasValidExtension (path : String) (extensions : List String) : Bool :=
  if extensions.length = 0 then true
  else
    let ext := asciiToLower (goExt path)
    extensions.any (fun validExt => ext = asciiToLower validExt)

/-- Models shouldProcessFileForSearch: ignore rules, then the extension
allow-list, then a text check that reads the first bytes and, unlike
readFirstBytes, treats ANY read error including io.EOF (hence every empty
file) as not-text. -/
def shouldProcessFileForSearch (fs : FileScanner) (path relPath : String)
    (content : List Nat) (extensions : List String) : Bool :=
  if shouldIgnore fs.gitIgnores relPath then false
  else if !hasValidExtension path extensions then false
  else
    let r := fileRead512 content
    match r.2 with
    | some _ => false
    | none => (content.take r.1).all (fun b => b ≠ 0)

/-- Models the per-line matching shared by searchInFile and
searchInFileStreaming: each bufio line is tested with MatchString; line numbers
are one-based in read order. -/
def searchLinesForMatches (regex : GoRegex) (relPath : String) (content : List Nat) :
    List Match :=
  (scanLinesTokens content).enum.filterMap (fun p =>
    let line := bytesToString p.2
    if regex.matchString line then
      some { file := relPath, line := p.1 + 1, content := line, pattern := regex.str }
    else none)

/-- Models searchInFile: files above 1 MiB go through the streaming scanner,
smaller ones through the buffered scanner; the two source paths differ only in
buffer sizes, so both reduce to the same per-line matching here. -/
def searchInFile (regex : GoRegex) (relPath : String) (content : List Nat) : List Match :=
  if content.length > 1024 * 1024 then searchLinesForMatches regex relPath content
  else searchLinesForMatches regex relPath content

/-- Models handleSearchSkipConditions (repository.go lines 1127-1140): only a
version-control directory produces SkipDir; every other case, including
version-control files and ordinary directories, falls through with nil. -/
def handleSearchSkipConditions (path : String) (isDir : Bool) : Option WalkSignal :=
  if shouldSkipPath path then
    if isDir then some WalkSignal.skipDir else none
  else none

/-- Models processSearchFile: eligible files contribute their matches; the
source also reaches this point for directories, whose open-and-read check in
shouldProcessFileForSearch fails, so they contribute nothing. -/
def processSearchFile (fs : FileScanner) (regex : GoRegex) (extensions : List String)
    (ms : List Match) (path relPath : String) (e : FsEntry) : List Match × WalkSignal :=
  match e with
  | .dir _ _ => (ms, WalkSignal.ok)
  | .file _ _ content =>
    if shouldProcessFileForSearch fs path relPath content extensions then
      (ms ++ searchInFile regex relPath content, WalkSignal.ok)
    else (ms, WalkSignal.ok)

/-- Models processSearchPath: skip conditions first, then per-file search. -/
def processSearchPath (fs : FileScanner) (regex : GoRegex) (extensions : List String) :
    WalkFn (List Match) :=
  fun ms path relPath e =>
    match handleSearchSkipConditions path e.isDir with
    | some sig => (ms, sig)
    | none => processSearchFile fs regex extensions ms path relPath e

/-- Models SearchInFiles: the pattern is compiled first and a compilation
failure is returned as an error with no walk performed and no matches; on
success the tree is walked once accumulating matches. -/
def searchInFiles (compile : String → Option GoRegex) (fs : FileScanner) (pattern : String)
    (extensions : List String) (root : FsEntry) : Except String (List Match) :=
  match compile pattern with
  | none => Except.error "invalid regex pattern"
  | some regex =>
    match goWalkTop (processSearchPath fs regex extensions) [] fs.rootPath root with
    | (_, WalkSignal.fail msg) => Except.error ("failed to search in files: " ++ msg)
    | (ms, _) => Except.ok ms

/-! ## Cache accessor aliasing model (GetCachedFiles / GetCachedFile /
FilterCachedFiles)

The Go cache stores pointers to UnifiedFileInfo records.  To state what the
read operations share, the pointer structure is made explicit: a heap maps
addresses to records, and the cache maps relative paths to addresses.
GetCachedFiles copies the map container but re-uses the addresses;
GetCachedFile and FilterCachedFiles hand out the stored addresses themselves.
Mutating a record through a returned address is heap mutation. -/

/-- A record address (a Go pointer value). -/
abbrev Addr := Nat

/-- The heap of UnifiedFileInfo records. -/
abbrev Heap := List (Addr × UnifiedFileInfo)

/-- Dereference an address. -/
def heapGet (h : Heap) (a : Addr) : Option UnifiedFileInfo :=
  assocGet h a

/-- Write a record through an address (mutation of the pointee in place). -/
def heapSet (h : Heap) (a : Addr) (v : UnifiedFileInfo) : Heap :=
  h.map (fun kv => if kv.1 = a then (a, v) else kv)

/-- The cache map as stored in FileCache.files: relative path to record
pointer. -/
structure FileCacheRef where
  files : List (String × Addr)

/-- Models GetCachedFiles: a fresh map is built by copying every key-to-pointer
entry of the internal map; the pointers themselves are shared. -/
def getCachedFilesRef (c : FileCacheRef) : List (String × Addr) :=
  c.files.foldl (fun cp kv => assocSet cp kv.1 kv.2) []

/-- Models GetCachedFile: the stored pointer for the key is returned as-is. -/
def getCachedFileRef (c : FileCacheRef) (relativePath : String) : Option Addr :=
  assocGet c.files relativePath

/-- Models FilterCachedFiles: the stored pointers whose pointees satisfy the
filter, in cache order. -/
def filterCachedFilesRef (h : Heap) (c : FileCacheRef) (filt : UnifiedFileInfo → Bool) :
    List Addr :=
  c.files.filterMap (fun kv =>
    match heapGet h kv.2 with
    | some fi => if filt fi then some kv.2 else none
    | none => none)

/-- The cache's logical contents: every key with the record its stored pointer
currently refers to. -/
def cacheContents (h : Heap) (c : FileCacheRef) : List (String × Option UnifiedFileInfo) :=
  c.files.map (fun kv => (kv.1, heapGet h kv.2))

/-! ## Security analyzer (security.go) and its configuration (config.go) -/

/-- Models report.Severity (a string type in the source). -/
abbrev Severity := String

/-- Severity constant: low. -/
def SeverityLow : Severity := "low"

/-- Severity constant: medium. -/
def SeverityMedium : Severity := "medium"

/-- Severity constant: high. -/
def SeverityHigh : Severity := "high"

/-- Severity constant: critical. -/
def SeverityCritical : Severity := "critical"

/-- Category constant: security. -/
def CategorySecurity : String := "security"

/-- Models report.Issue as populated by the security analyzer.  The CreatedAt
wall-clock timestamp is outside the embedding; Line keeps the Go zero value
when the source leaves it unset. -/
structure Issue where
  id : String
  title : String
  description : String
  category : String
  severity : Severity
  file : String
  line : Nat := 0
  rule : String
  fix : String
deriving Repr, DecidableEq

/-- Models config.SecurityConfig as consumed by the analyzer. -/
structure SecurityConfig where
  secretPatterns : List String
  suspiciousFiles : List String
  allowedSecrets : List String

/-- The suspicious-filename glob list of config.DefaultConfig. -/
def defaultSuspiciousFiles : List String :=
  ["*.pem", "*.key", "*.p12", "*.pfx", "*.jks",
   ".env", ".env.*", "*.env",
   "id_rsa", "id_dsa", "id_ecdsa", "id_ed25519",
   "*.dump", "*.backup", "database.sql", "db_dump.sql"]

/-- Models SecurityAnalyzer state: the configuration, the pre-compiled
patterns, and the sync.Once guard as a done flag. -/
structure SecurityAnalyzer where
  config : SecurityConfig
  compiledPatterns : List GoRegex := []
  patternOnceDone : Bool := false

/-- Models compilePatterns: under the sync.Once guard, each configured pattern
is compiled once; a pattern that fails to compile is skipped silently and every
pattern that compiles is kept, in order.  regexp.Compile is the compile
argument, returning none exactly on a compilation error. -/
def compilePatterns (compile : String → Option GoRegex) (a : SecurityAnalyzer) :
    SecurityAnalyzer :=
  if a.patternOnceDone then a
  else
    { a with
      compiledPatterns := a.config.secretPatterns.filterMap compile
      patternOnceDone := true }

/-- Models NewSecurityAnalyzer: the analyzer is built and its patterns are
pre-compiled on creation; construction itself cannot fail. -/
def newSecurityAnalyzer (compile : String → Option GoRegex) (cfg : SecurityConfig) :
    SecurityAnalyzer :=
  compilePatterns compile { config := cfg }

/-- Models isAllowedSecret: case-insensitive substring test against every
configured allowed secret. -/
def isAllowedSecret (cfg : SecurityConfig) (content : String) : Bool :=
  let c := asciiToLower content
  cfg.allowedSecrets.any (fun allowed => goContains c (asciiToLower allowed))

/-- Models determineSecretSeverity: keyword heuristics on the lower-cased match
text; assignment-style password/token/private-key keywords give high,
api-key/access-key keywords give medium, anything else low. -/
def determineSecretSeverity (content : String) : Severity :=
  let c := asciiToLower content
  let highRiskPatterns :=
    ["private_key", "private key", "secret_key", "secret key",
     "password[:=]", "password =", "password:", "token[:=]", "token =", "token:"]
  let mediumRiskPatterns :=
    ["api_key", "api key", "access_key", "access key",
     "apikey[:=]", "apikey =", "apikey:"]
  if highRiskPatterns.any (fun pattern => goContains c pattern) then SeverityHigh
  else if mediumRiskPatterns.any (fun pattern => goContains c pattern) then SeverityMedium
  else SeverityLow

/-- Models isSuspiciousFile: any configured glob may match either the base name
or the full relative path. -/
def isSuspiciousFile (cfg : SecurityConfig) (filePath : String) : Bool :=
  let fileName := goBase filePath
  cfg.suspiciousFiles.any (fun pattern =>
    goMatch pattern fileName || goMatch pattern filePath)

/-- Models determineSuspiciousFileSeverity: critical for the exact critical
base names (or base names ending in them), high for known key and certificate
extensions, medium otherwise. -/
def determineSuspiciousFileSeverity (filePath : String) : Severity :=
  let fileName := asciiToLower (goBase filePath)
  let criticalFiles := [".env", "id_rsa", "id_dsa", "private.key", "server.key"]
  let highRiskExtensions := [".pem", ".key", ".p12", ".pfx", ".jks"]
  if criticalFiles.any (fun critical => fileName = critical || goEndsWith fileName critical)
  then SeverityCritical
  else
    let ext := asciiToLower (goExt filePath)
    if highRiskExtensions.any (fun riskExt => ext = riskExt) then SeverityHigh
    else SeverityMedium

/-- Models hasTestFilePattern: the lower-cased base name carries a test suffix
or test name pattern (each pattern is tried as a suffix and as a first part of
the name). -/
def hasTestFilePattern (filePath : String) : Bool :=
  let fileName := asciiToLower (goBase filePath)
  ["_test.go", "test_"].any (fun pattern =>
    goEndsWith fileName pattern || goStartsWith fileName pattern)

/-- Models isInTestDirectory: some component of the lower-cased directory path
is a conventional test directory name. -/
def isInTestDirectory (filePath : String) : Bool :=
  let dirPath := asciiToLower (goDir filePath)
  let testDirs :=
    ["test", "tests", "testing", "__tests__", "spec", "specs",
     "testdata", "test-data", "fixtures", "mocks", "mock"]
  (splitOnSep '/' dirPath.data).any (fun part =>
    testDirs.any (fun testDir => String.mk part = testDir))

/-- Models isTestFile: test naming convention or test directory. -/
def isTestFile (filePath : String) : Bool :=
  hasTestFilePattern filePath || isInTestDirectory filePath

/-- Models isSecurityAnalyzerFile: the analyzer skips its own sources. -/
def isSecurityAnalyzerFile (filePath : String) : Bool :=
  goContains filePath "security.go" ||
    goContains filePath "analyzer/security" ||
    goContains filePath "security_test.go"

/-- Models searchSecretsInContent: every compiled pattern is applied to every
line; every non-allowed match yields one issue whose severity comes from the
match text and whose line number is one-based. -/
def searchSecretsInContent (a : SecurityAnalyzer) (content filePath : String) : List Issue :=
  let lines := splitLines content
  a.compiledPatterns.flatMap (fun pattern =>
    lines.enum.flatMap (fun p =>
      let lineNum := p.1
      let line := p.2
      let found := pattern.findAllString line
      if found.length > 0 then
        found.filterMap (fun m =>
          if isAllowedSecret a.config m then none
          else
            some
              { id := "secret-" ++ replaceSlashDash filePath ++ "-" ++ toString (lineNum + 1)
                title := "Potential secret detected"
                description :=
                  "Found pattern that may contain credentials: " ++ truncateString line 80
                category := CategorySecurity
                severity := determineSecretSeverity m
                file := filePath
                line := lineNum + 1
                rule := "secret-detection"
                fix := "Use environment variables or secure secret management" })
      else []))

/-- Models shouldProcessCachedFile: irrelevant extensions are skipped (files
with no extension pass this check, as in the source), then test files and the
analyzer's own sources are skipped, then only text files remain. -/
def shouldProcessCachedFile (a : SecurityAnalyzer) (file : UnifiedFileInfo)
    (relevantExtensions : List String) : Bool :=
  if !(relevantExtensions.contains file.extension) && file.extension ≠ "" then false
  else if isTestFile file.relativePath || isSecurityAnalyzerFile file.relativePath then false
  else file.isText

/-- Models getFileContentForScanning: cached content when present, otherwise an
on-demand disk read (the disk argument; none models an unreadable file, which
is skipped). -/
def getFileContentForScanning (disk : String → Option (List Nat)) (file : UnifiedFileInfo) :
    Option (List Nat) :=
  if file.content.length > 0 then some file.content else disk file.path

/-- Models scanSecretsFromCache: every relevant cached file contributes the
issues found in its content. -/
def scanSecretsFromCache (a : SecurityAnalyzer) (disk : String → Option (List Nat))
    (cachedFiles : List (String × UnifiedFileInfo)) : List Issue :=
  let relevantExtensions := [".go", ".mod", ".sum", ".yaml", ".yml", ".json", ".env"]
  cachedFiles.flatMap (fun kv =>
    let file := kv.2
    if !shouldProcessCachedFile a file relevantExtensions then []
    else
      match getFileContentForScanning disk file with
      | none => []
      | some content => searchSecretsInContent a (bytesToString content) file.relativePath)

/-- Models the cached branch of scanForSuspiciousFiles: every non-test cached
file whose name matches a suspicious glob yields exactly one issue with the
severity of determineSuspiciousFileSeverity. -/
def scanForSuspiciousFilesFromCache (a : SecurityAnalyzer)
    (cachedFiles : List (String × UnifiedFileInfo)) : List Issue :=
  cachedFiles.flatMap (fun kv =>
    let file := kv.2
    if isTestFile file.relativePath then []
    else if isSuspiciousFile a.config file.relativePath then
      [{ id := "suspicious-file-" ++ replaceSlashDash file.relativePath
         title := "Suspicious file detected"
         description :=
           "File " ++ file.relativePath ++
             " may contain sensitive information and should not be in version control"
         category := CategorySecurity
         severity := determineSuspiciousFileSeverity file.relativePath
         file := file.relativePath
         rule := "suspicious-file-detection"
         fix := "Remove the file from version control and add to .gitignore" }]
    else [])

/-! ## Theorems

First the shared helper lemmas, then one theorem (plus witness or
counterexample where required) per claim. -/

/-- Folding one chunk then the next is folding the concatenation: the buffer
boundary of the streaming counter is invisible to the line state. -/
theorem countLinesInBuffer_append (l₁ l₂ : List Nat) (c : Nat) (b : Bool) :
    countLinesInBuffer (l₁ ++ l₂) c b =
      countLinesInBuffer l₂ (countLinesInBuffer l₁ c b).1 (countLinesInBuffer l₁ c b).2 := by
  simp [countLinesInBuffer, List.foldl_append]

/-- The chunked read loop of the streaming counter computes the same state as a
single fold over the whole content. -/
theorem streamingReadLoop_eq_aux : ∀ (n : Nat) (content : List Nat), content.length ≤ n →
    ∀ (c : Nat) (b : Bool), streamingReadLoop content c b = countLinesInBuffer content c b := by
  intro n
  induction n with
  | zero =>
    intro content hlen c b
    have hc : content = [] := List.eq_nil_of_length_eq_zero (Nat.le_zero.mp hlen)
    subst hc
    rw [streamingReadLoop]
    simp [countLinesInBuffer]
  | succ n ih =>
    intro content hlen c b
    by_cases h : content = []
    · subst h
      rw [streamingReadLoop]
      simp [countLinesInBuffer]
    · rw [streamingReadLoop]
      rw [dif_neg h]
      rw [ih (content.drop 65536)
        (by
          have hpos : 0 < content.length := List.length_pos.mpr h
          simp only [List.length_drop]
          omega)]
      conv_rhs => rw [← List.take_append_drop 65536 content]
      rw [countLinesInBuffer_append]

/-- Wrapper for streamingReadLoop_eq_aux at the content's own length. -/
theorem streamingReadLoop_eq (content : List Nat) (c : Nat) (b : Bool) :
    streamingReadLoop content c b = countLinesInBuffer content c b :=
  streamingReadLoop_eq_aux content.length content le_rfl c b

/-- The count component of the buffer fold is the plain newline-count fold used
by countLinesFromBytes, started at the given count. -/
theorem countLinesInBuffer_fst (l : List Nat) (c : Nat) (b : Bool) :
    (countLinesInBuffer l c b).1 =
      l.foldl (fun acc x => if x = 10 then acc + 1 else acc) c := by
  induction l generalizing c b with
  | nil => rfl
  | cons x t ih =>
    simp only [countLinesInBuffer, List.foldl_cons] at *
    by_cases hx : x = 10 <;> simp [hx, ih]

/-- C2 counterexample: on the empty (0-byte) input the buffered counter returns
0 but the streaming counter returns 1 (its final adjustment fires because no
newline was ever seen), so the claimed equality on all inputs up to the cache
threshold fails at the empty input. -/
theorem c2_counterexample_empty_input :
    countLinesFromBytes [] = 0 ∧ streamingLineCount [] = 1 ∧
      streamingLineCount [] ≠ countLinesFromBytes [] := by
  have h1 : streamingLineCount [] = 1 := by
    unfold streamingLineCount
    rw [streamingReadLoop_eq]
    simp [countLinesInBuffer, adjustFinalLineCount]
  exact ⟨rfl, h1, by rw [h1]; simp [countLinesFromBytes]⟩

/-- C2 (amended): for every non-empty byte sequence of size at most the cache
threshold the buffered counter and the streaming counter agree; on the empty
input the streaming counter returns 1 while the buffered counter returns 0. -/
theorem c2_line_count_parity_amended :
    (∀ content : List Nat, content.length ≤ 1024 * 1024 → content ≠ [] →
      streamingLineCount content = countLinesFromBytes content) ∧
    streamingLineCount [] = 1 ∧ countLinesFromBytes [] = 0 := by
  refine ⟨?_, ?_, rfl⟩
  · intro content _hlen hne
    obtain ⟨L, y, rfl⟩ := (List.eq_nil_or_concat content).resolve_left hne
    simp only [List.concat_eq_append]
    have hs1 := countLinesInBuffer_fst L 0 false
    simp only [countLinesInBuffer] at hs1
    unfold streamingLineCount
    rw [streamingReadLoop_eq, countLinesInBuffer_append]
    unfold countLinesFromBytes adjustFinalLineCount
    rw [List.foldl_append, List.getLast?_concat]
    by_cases hy : y = 10 <;> simp [countLinesInBuffer, hy, hs1]
  · unfold streamingLineCount
    rw [streamingReadLoop_eq]
    simp [countLinesInBuffer, adjustFinalLineCount]

/-- C2 witness: the amended parity theorem applied to the one-byte content
without a trailing newline. -/
theorem c2_line_count_parity_witness :
    streamingLineCount [97] = countLinesFromBytes [97] :=
  c2_line_count_parity_amended.1 [97] (by decide) (by decide)

/-- A key just inserted by a Go map assignment is found with the inserted
value. -/
theorem assocGet_assocSet {κ α : Type} [DecidableEq κ] (m : List (κ × α)) (k : κ) (v : α) :
    assocGet (assocSet m k v) k = some v := by
  induction m with
  | nil => simp [assocSet, assocGet]
  | cons kv rest ih =>
    by_cases h : kv.1 = k
    · simp [assocSet, assocGet, h]
    · simp [assocSet, assocGet, h, ih]

/-- C1: the unified traversal does NOT skip a version-control file as only that
single file: shouldSkipDirectory returns filepath.SkipDir for plain files too,
and filepath.Walk then abandons the remaining entries of the containing
directory.  In a root holding ".gitignore" and "main.go" (in that lexical
order), the scan returns an empty cache: "main.go" has no key even though its
path does not contain ".git" and no ignore rule matches it, contradicting the
claimed invariant. -/
theorem c1_skipdir_for_file_drops_siblings :
    scanAllFiles { rootPath := "repo", gitIgnores := [] } []
        (FsEntry.dir "repo"
          [FsEntry.file ".gitignore" 0 [], FsEntry.file "main.go" 0 (strToBytes "x")])
      = Except.ok [] ∧
    shouldSkipPath "repo/main.go" = false ∧
    shouldIgnore [] "main.go" = false := by
  refine ⟨by decide, by decide, by decide⟩

/-- C9: a rescan discards the previous cache, so two runs of ScanAllFiles over
the same unchanged tree from any two prior cache states return equal caches:
identical key sets and, for every key, identical size, extension, is-text and
line-count tuples. -/
theorem c9_rescan_deterministic :
    ∀ (fs : FileScanner) (root : FsEntry) (prev1 prev2 c1 c2 : ScanCache),
      scanAllFiles fs prev1 root = Except.ok c1 →
      scanAllFiles fs prev2 root = Except.ok c2 →
      c1 = c2 ∧
        ∀ k, (assocGet c1 k).map (fun fi => (fi.size, fi.extension, fi.isText, fi.lineCount))
          = (assocGet c2 k).map (fun fi => (fi.size, fi.extension, fi.isText, fi.lineCount)) := by
  intro fs root prev1 prev2 c1 c2 h1 h2
  have heq : scanAllFiles fs prev1 root = scanAllFiles fs prev2 root := rfl
  rw [h1, h2] at heq
  obtain rfl : c1 = c2 := Except.ok.inj heq
  exact ⟨rfl, fun _ => rfl⟩

/-- C9 witness: the determinism theorem applied to a one-file tree, rescanned
once from the empty cache and once from a stale non-empty cache. -/
theorem c9_rescan_deterministic_witness :
    ([("main.go",
       { path := "repo/main.go", relativePath := "main.go", size := 6, extension := ".go",
         isText := true, lineCount := 1, content := [104, 101, 108, 108, 111, 10],
         firstBytes := [104, 101, 108, 108, 111, 10], modTime := 7 })] : ScanCache)
      = [("main.go",
       { path := "repo/main.go", relativePath := "main.go", size := 6, extension := ".go",
         isText := true, lineCount := 1, content := [104, 101, 108, 108, 111, 10],
         firstBytes := [104, 101, 108, 108, 111, 10], modTime := 7 })] ∧
    ∀ k, (assocGet
        ([("main.go",
          { path := "repo/main.go", relativePath := "main.go", size := 6, extension := ".go",
            isText := true, lineCount := 1, content := [104, 101, 108, 108, 111, 10],
            firstBytes := [104, 101, 108, 108, 111, 10], modTime := 7 })] : ScanCache) k).map
        (fun fi => (fi.size, fi.extension, fi.isText, fi.lineCount))
      = (assocGet
        ([("main.go",
          { path := "repo/main.go", relativePath := "main.go", size := 6, extension := ".go",
            isText := true, lineCount := 1, content := [104, 101, 108, 108, 111, 10],
            firstBytes := [104, 101, 108, 108, 111, 10], modTime := 7 })] : ScanCache) k).map
        (fun fi => (fi.size, fi.extension, fi.isText, fi.lineCount)) :=
  c9_rescan_deterministic { rootPath := "repo", gitIgnores := [] }
    (FsEntry.dir "repo" [FsEntry.file "main.go" 7 (strToBytes "hello\n")])
    []
    [("stale",
      { path := "x", relativePath := "stale", size := 0, extension := "", modTime := 0 })]
    _ _ (by decide) (by decide)

/-- C10: for a zero-byte file the end-of-file outcome of the 512-byte prefix
read is not treated as an error, and the record processFile inserts has is_text
true, empty cached content, and line count 0. -/
theorem c10_zero_byte_file_record :
    ∀ (fs : FileScanner) (cache : ScanCache) (path relPath : String) (mtime : Nat),
      shouldIgnore fs.gitIgnores relPath = false →
      readFirstBytes [] = Except.ok [] ∧
      (processFile fs cache path relPath [] mtime).2 = WalkSignal.ok ∧
      ∃ fi, assocGet (processFile fs cache path relPath [] mtime).1 relPath = some fi ∧
        fi.isText = true ∧ fi.content = [] ∧ fi.lineCount = 0 := by
  intro fs cache path relPath mtime hig
  refine ⟨rfl, ?_, ?_⟩
  · simp [processFile, hig]
  · refine ⟨analyzeFileContent fs (createFileInfo path relPath [] mtime) [], ?_, ?_, ?_, ?_⟩
    · simp [processFile, hig, assocGet_assocSet]
    · simp [analyzeFileContent, readFirstBytes, fileRead512, isTextFromBytes,
        handleTextFileContent, createFileInfo, calculateLineCount]
    · simp [analyzeFileContent, readFirstBytes, fileRead512, isTextFromBytes,
        handleTextFileContent, createFileInfo, calculateLineCount]
    · simp [analyzeFileContent, readFirstBytes, fileRead512, isTextFromBytes,
        handleTextFileContent, createFileInfo, calculateLineCount, countLines,
        countLinesScanner, scanLinesTokens, splitOnSep, dropCR]

/-- C10 witness: the zero-byte-file theorem applied to a concrete empty file in
a scanner with no ignore rules. -/
theorem c10_zero_byte_file_record_witness :
    readFirstBytes [] = Except.ok [] ∧
    (processFile { rootPath := "r", gitIgnores := [] } [] "r/empty.txt" "empty.txt" [] 0).2
      = WalkSignal.ok ∧
    ∃ fi, assocGet
        (processFile { rootPath := "r", gitIgnores := [] } [] "r/empty.txt" "empty.txt" [] 0).1
        "empty.txt" = some fi ∧
      fi.isText = true ∧ fi.content = [] ∧ fi.lineCount = 0 :=
  c10_zero_byte_file_record { rootPath := "r", gitIgnores := [] } [] "r/empty.txt" "empty.txt" 0
    (by decide)

/-- C5: a file whose first-512-byte prefix contains a null byte is recorded as
binary: is_text false, no cached content, line count 0, whatever the file's
total size. -/
theorem c5_binary_files_uncached :
    ∀ (fs : FileScanner) (cache : ScanCache) (path relPath : String) (content : List Nat)
      (mtime : Nat),
      (content.take 512).any (fun b => b = 0) = true →
      shouldIgnore fs.gitIgnores relPath = false →
      ∃ fi, assocGet (processFile fs cache path relPath content mtime).1 relPath = some fi ∧
        fi.isText = false ∧ fi.content = [] ∧ fi.lineCount = 0 := by
  intro fs cache path relPath content mtime hnull hig
  have hne : content ≠ [] := by
    intro h
    subst h
    simp at hnull
  have hlen : ¬content.length = 0 := fun h => hne (List.eq_nil_of_length_eq_zero h)
  have htake : content.take (min 512 content.length) = content.take 512 := by
    rcases Nat.le_total 512 content.length with h | h
    · rw [Nat.min_eq_left h]
    · rw [Nat.min_eq_right h, List.take_length, List.take_of_length_le h]
  have htext : isTextFromBytes (content.take 512) = false := by
    obtain ⟨b, hb, hb0⟩ := List.any_eq_true.mp hnull
    simp only [isTextFromBytes]
    rw [List.all_eq_false]
    exact ⟨b, hb, by simpa using hb0⟩
  refine ⟨analyzeFileContent fs (createFileInfo path relPath content mtime) content, ?_, ?_, ?_, ?_⟩
  · simp [processFile, hig, assocGet_assocSet]
  · simp [analyzeFileContent, readFirstBytes, fileRead512, hlen, htake, htext, createFileInfo]
  · simp [analyzeFileContent, readFirstBytes, fileRead512, hlen, htake, htext, createFileInfo]
  · simp [analyzeFileContent, readFirstBytes, fileRead512, hlen, htake, htext, createFileInfo]

/-- C5 witness: the binary-file theorem applied to a three-byte file whose
second byte is null. -/
theorem c5_binary_files_uncached_witness :
    ∃ fi, assocGet
        (processFile { rootPath := "r", gitIgnores := [] } [] "r/photo.png" "photo.png"
          [137, 0, 71] 0).1 "photo.png" = some fi ∧
      fi.isText = false ∧ fi.content = [] ∧ fi.lineCount = 0 :=
  c5_binary_files_uncached { rootPath := "r", gitIgnores := [] } [] "r/photo.png" "photo.png"
    [137, 0, 71] 0 (by decide) (by decide)

/-- C3 counterexample: with the default suspicious-file globs, a non-test file
named server.key yields exactly one finding, but its severity is critical (the
name is in the critical-files list, checked before the key-extension list), not
high as claimed. -/
theorem c3_counterexample_server_key_severity :
    ((scanForSuspiciousFilesFromCache
        { config := { secretPatterns := [], suspiciousFiles := defaultSuspiciousFiles,
                      allowedSecrets := [] } }
        [("server.key",
          { path := "/repo/server.key", relativePath := "server.key", size := 3,
            extension := ".key", isText := true })]).map (fun i => i.severity))
      = [SeverityCritical] ∧ SeverityCritical ≠ SeverityHigh := by
  refine ⟨by decide, by decide⟩

/-- C3 (amended): in the suspicious-file scan with the default globs, a
non-test root-level file named .env yields exactly one finding with severity
critical, and a non-test file named server.key yields exactly one finding with
severity critical. -/
theorem c3_suspicious_severities_amended :
    ((scanForSuspiciousFilesFromCache
        { config := { secretPatterns := [], suspiciousFiles := defaultSuspiciousFiles,
                      allowedSecrets := [] } }
        [(".env",
          { path := "/repo/.env", relativePath := ".env", size := 3,
            extension := ".env", isText := true })]).map (fun i => i.severity))
      = [SeverityCritical] ∧
    ((scanForSuspiciousFilesFromCache
        { config := { secretPatterns := [], suspiciousFiles := defaultSuspiciousFiles,
                      allowedSecrets := [] } }
        [("server.key",
          { path := "/repo/server.key", relativePath := "server.key", size := 3,
            extension := ".key", isText := true })]).map (fun i => i.severity))
      = [SeverityCritical] := by
  refine ⟨by decide, by decide⟩

/-- Lookup commutes with a value-only map over an association list. -/
theorem assocGet_map_value {κ α β : Type} [DecidableEq κ] (l : List (κ × α)) (f : α → β)
    (k : κ) :
    assocGet (l.map (fun kv => (kv.1, f kv.2))) k = (assocGet l k).map f := by
  induction l with
  | nil => rfl
  | cons kv rest ih => by_cases h : kv.1 = k <;> simp [assocGet, h, ih]

/-- Writing through an allocated address makes that address dereference to the
written record. -/
theorem heapGet_heapSet (h : Heap) (a : Addr) (v u : UnifiedFileInfo)
    (hu : heapGet h a = some u) : heapGet (heapSet h a v) a = some v := by
  induction h with
  | nil => simp [heapGet, assocGet] at hu
  | cons kv rest ih =>
    by_cases hk : kv.1 = a
    · simp [heapGet, heapSet, assocGet, hk]
    · simp only [heapGet, heapSet, assocGet, List.map_cons, if_neg hk] at hu ⊢
      exact ih hu

/-- C4 counterexample: GetCachedFile returns the stored record pointer itself;
writing through that pointer changes the cache's logical contents, so the read
operation does not return a copy of the record. -/
theorem c4_counterexample_live_reference :
    getCachedFileRef ⟨[("a.go", 0)]⟩ "a.go" = some 0 ∧
    cacheContents
        (heapSet [(0, { path := "r/a.go", relativePath := "a.go", size := 1,
                        extension := ".go" })] 0
          { path := "r/a.go", relativePath := "a.go", size := 999, extension := ".go" })
        ⟨[("a.go", 0)]⟩
      ≠ cacheContents
        [(0, { path := "r/a.go", relativePath := "a.go", size := 1, extension := ".go" })]
        ⟨[("a.go", 0)]⟩ := by
  refine ⟨by decide, by decide⟩

/-- C4 (amended): the read operations copy only the top-level container, not
the records: the pointer GetCachedFile returns aliases the cache's record, so
writing any value through it makes the cache's contents at that key become
exactly the written value. -/
theorem c4_shared_records_amended :
    ∀ (h : Heap) (c : FileCacheRef) (k : String) (a : Addr) (u v : UnifiedFileInfo),
      getCachedFileRef c k = some a →
      heapGet h a = some u →
      assocGet (cacheContents (heapSet h a v) c) k = some (some v) := by
  intro h c k a u v hget hu
  unfold cacheContents
  rw [assocGet_map_value]
  unfold getCachedFileRef at hget
  rw [hget]
  simp [heapGet_heapSet h a v u hu]

/-- C4 witness: the aliasing theorem applied to a one-record heap and cache. -/
theorem c4_shared_records_witness :
    assocGet
        (cacheContents
          (heapSet [(0, { path := "r/a.go", relativePath := "a.go", size := 1,
                          extension := ".go" })] 0
            { path := "r/a.go", relativePath := "a.go", size := 999, extension := ".go" })
          ⟨[("a.go", 0)]⟩) "a.go"
      = some (some { path := "r/a.go", relativePath := "a.go", size := 999,
                     extension := ".go" }) :=
  c4_shared_records_amended
    [(0, { path := "r/a.go", relativePath := "a.go", size := 1, extension := ".go" })]
    ⟨[("a.go", 0)]⟩ "a.go" 0
    { path := "r/a.go", relativePath := "a.go", size := 1, extension := ".go" }
    { path := "r/a.go", relativePath := "a.go", size := 999, extension := ".go" }
    (by decide) (by decide)

/-- C7: when the user-supplied pattern does not compile, SearchInFiles returns
the invalid-pattern error without walking anything, so no match records are
produced. -/
theorem c7_invalid_pattern_is_error :
    ∀ (compile : String → Option GoRegex) (fs : FileScanner) (pattern : String)
      (extensions : List String) (root : FsEntry),
      compile pattern = none →
      searchInFiles compile fs pattern extensions root
        = Except.error "invalid regex pattern" := by
  intro compile fs pattern extensions root h
  unfold searchInFiles
  rw [h]

/-- C7 witness: the error theorem applied to a compiler that rejects the
pattern, over a small tree. -/
theorem c7_invalid_pattern_is_error_witness :
    searchInFiles (fun _ => none) { rootPath := "r", gitIgnores := [] } "(" []
        (FsEntry.dir "r" [FsEntry.file "a.go" 0 []])
      = Except.error "invalid regex pattern" :=
  c7_invalid_pattern_is_error (fun _ => none) { rootPath := "r", gitIgnores := [] } "(" []
    (FsEntry.dir "r" [FsEntry.file "a.go" 0 []]) rfl

/-- C8: analyzer construction is total and compiles the configured patterns
exactly at construction: the compiled list is the in-order filterMap of the
configured patterns (failing patterns are skipped, compiling ones kept), and a
later compilePatterns call is a no-op because of the sync.Once guard. -/
theorem c8_pattern_compilation_total :
    ∀ (compile : String → Option GoRegex) (cfg : SecurityConfig),
      (newSecurityAnalyzer compile cfg).compiledPatterns
        = cfg.secretPatterns.filterMap compile ∧
      (newSecurityAnalyzer compile cfg).config = cfg ∧
      compilePatterns compile (newSecurityAnalyzer compile cfg)
        = newSecurityAnalyzer compile cfg := by
  intro compile cfg
  refine ⟨?_, ?_, ?_⟩ <;> simp [newSecurityAnalyzer, compilePatterns]

/-- C6: a line holding a quoted password assignment, matched by the configured
(compiled) secret pattern with no allowed-secret entries, in a cached non-test
text file main.go yields exactly one finding and its severity is high; the same
content under the name foo_test.go is skipped entirely and yields no
findings. -/
theorem c6_secret_scan_findings :
    ∀ (p : GoRegex) (disk : String → Option (List Nat)),
      p.findAllString "password = \"12345678\"" = ["password = \"12345678\""] →
      ((scanSecretsFromCache
          { config := { secretPatterns := [], suspiciousFiles := [], allowedSecrets := [] },
            compiledPatterns := [p], patternOnceDone := true } disk
          [("main.go",
            { path := "/repo/main.go", relativePath := "main.go",
              size := 21, extension := ".go",
              isText := true, content := strToBytes "password = \"12345678\"" })]).map
          (fun i => i.severity)) = [SeverityHigh] ∧
      scanSecretsFromCache
          { config := { secretPatterns := [], suspiciousFiles := [], allowedSecrets := [] },
            compiledPatterns := [p], patternOnceDone := true } disk
          [("foo_test.go",
            { path := "/repo/foo_test.go", relativePath := "foo_test.go",
              size := 21, extension := ".go",
              isText := true, content := strToBytes "password = \"12345678\"" })] = [] := by
  intro p disk hp
  constructor
  · simp only [scanSecretsFromCache, List.flatMap_cons, List.flatMap_nil, List.append_nil]
    rw [show shouldProcessCachedFile
        { config := { secretPatterns := [], suspiciousFiles := [], allowedSecrets := [] },
          compiledPatterns := [p], patternOnceDone := true }
        { path := "/repo/main.go", relativePath := "main.go",
          size := 21, extension := ".go",
          isText := true, content := strToBytes "password = \"12345678\"" }
        [".go", ".mod", ".sum", ".yaml", ".yml", ".json", ".env"] = true from by
      simp [shouldProcessCachedFile]
      decide]
    rw [show getFileContentForScanning disk
        { path := "/repo/main.go", relativePath := "main.go",
          size := 21, extension := ".go",
          isText := true, content := strToBytes "password = \"12345678\"" }
        = some (strToBytes "password = \"12345678\"") from by
      simp [getFileContentForScanning,
        show (strToBytes "password = \"12345678\"").length > 0 from by decide]]
    simp only [Bool.not_true, Bool.false_eq_true, if_false]
    simp only [searchSecretsInContent]
    rw [show splitLines (bytesToString (strToBytes "password = \"12345678\""))
        = ["password = \"12345678\""] from by decide]
    rw [show (["password = \"12345678\""] : List String).enum
        = [(0, "password = \"12345678\"")] from by decide]
    simp only [List.flatMap_cons, List.flatMap_nil, List.append_nil]
    rw [hp]
    decide
  · simp only [scanSecretsFromCache, List.flatMap_cons, List.flatMap_nil, List.append_nil]
    rw [show shouldProcessCachedFile
        { config := { secretPatterns := [], suspiciousFiles := [], allowedSecrets := [] },
          compiledPatterns := [p], patternOnceDone := true }
        { path := "/repo/foo_test.go", relativePath := "foo_test.go",
          size := 21, extension := ".go",
          isText := true, content := strToBytes "password = \"12345678\"" }
        [".go", ".mod", ".sum", ".yaml", ".yml", ".json", ".env"] = false from by
      simp [shouldProcessCachedFile]
      decide]
    simp

/-- C6 witness: the secret-scan theorem applied to a concrete matcher that
finds exactly the password assignment on its line, with no on-demand disk. -/
theorem c6_secret_scan_findings_witness :
    ((scanSecretsFromCache
        { config := { secretPatterns := [], suspiciousFiles := [], allowedSecrets := [] },
          compiledPatterns :=
            [{ str := "pw", matchString := fun _ => true,
               findAllString := fun line =>
                 if line = "password = \"12345678\"" then ["password = \"12345678\""]
                 else [] }],
          patternOnceDone := true } (fun _ => none)
        [("main.go",
          { path := "/repo/main.go", relativePath := "main.go",
            size := 21, extension := ".go",
            isText := true, content := strToBytes "password = \"12345678\"" })]).map
        (fun i => i.severity)) = [SeverityHigh] ∧
    scanSecretsFromCache
        { config := { secretPatterns := [], suspiciousFiles := [], allowedSecrets := [] },
          compiledPatterns :=
            [{ str := "pw", matchString := fun _ => true,
               findAllString := fun line =>
                 if line = "password = \"12345678\"" then ["password = \"12345678\""]
                 else [] }],
          patternOnceDone := true } (fun _ => none)
        [("foo_test.go",
          { path := "/repo/foo_test.go", relativePath := "foo_test.go",
            size := 21, extension := ".go",
            isText := true, content := strToBytes "password = \"12345678\"" })] = [] :=
  c6_secret_scan_findings
    { str := "pw", matchString := fun _ => true,
      findAllString := fun line =>
        if line = "password = \"12345678\"" then ["password = \"12345678\""] else [] }
    (fun _ => none) (by decide)
